import Mathlib

/-!
Verification development for the pint unit-of-measurement engine.

The definitions below embed, in Lean, the definition-parsing layer
(`pint/definitions.py`), the function-wrapping layer
(`pint/registry_helpers.py`), the application-registry handle
(`pint/__init__.py`), and — modelled from the specification where the
corresponding modules (`pint/util.py`, `pint/converters.py`,
`pint/errors.py`, `pint/registry.py`) are not part of the sources under
review — the expression parser, converters, error taxonomy and the
conversion core of the registry.  Numeric magnitudes are embedded as
rationals.
-/

deriving instance DecidableEq for Except

namespace Pint

/-- Python's `s.split(sep)` on the character level: split at every
occurrence of `sep`, keeping empty pieces, never returning an empty
list. -/
def splitOnCharList (sep : Char) : List Char → List (List Char)
  | [] => [[]]
  | c :: cs =>
    let r := splitOnCharList sep cs
    if c = sep then [] :: r
    else
      match r with
      | [] => [[c]]
      | x :: xs => (c :: x) :: xs

/-- Python's `s.split(sep)` for a single-character separator. -/
def splitChar (s : String) (sep : Char) : List String :=
  (splitOnCharList sep s.toList).map String.mk

/-- Python's `s.startswith(p)`. -/
def pyStartsWith (s p : String) : Bool :=
  p.toList.isPrefixOf s.toList

/-- Python's `s.endswith(c)` for a one-character suffix. -/
def pyEndsWithChar (c : Char) (s : String) : Bool :=
  match s.toList.reverse with
  | [] => false
  | x :: _ => x = c

/-- Python's `s.strip()`: drop whitespace at both ends. -/
def pyStrip (s : String) : String :=
  String.mk (((s.toList.dropWhile Char.isWhitespace).reverse.dropWhile
    Char.isWhitespace).reverse)

/-- Python's `s.lstrip()`: drop whitespace at the left end. -/
def pyLstrip (s : String) : String :=
  String.mk (s.toList.dropWhile Char.isWhitespace)

/-- Split a string at the first occurrence of `c`, mirroring Python's
`s.split(c, 1)` followed by a two-element unpacking: `none` when `c` does
not occur. -/
def splitFirst (s : String) (c : Char) : Option (String × String) :=
  match splitChar s c with
  | [] => none
  | [_] => none
  | x :: rest => some (x, String.intercalate (String.mk [c]) rest)

/-- Python's `str.rstrip('-')`: drop every trailing occurrence of `c`. -/
def rstripChar (c : Char) (s : String) : String :=
  String.mk ((s.toList.reverse.dropWhile (fun x => x = c)).reverse)

/-- Python's `str.strip('-')`: drop every leading and trailing occurrence
of `c`. -/
def stripChar (c : Char) (s : String) : String :=
  String.mk (((s.toList.dropWhile (fun x => x = c)).reverse.dropWhile
    (fun x => x = c)).reverse)

/-! ### Rational magnitudes

Numeric magnitudes are embedded as rationals in lowest terms with a
positive denominator, with fully structural arithmetic so that every
concrete computation reduces in the kernel. -/

/-- A rational number: numerator and positive denominator, kept in lowest
terms by the smart constructors. -/
structure Q : Type where
  num : Int
  den : Nat
deriving Repr, DecidableEq

/-- Zero. -/
def Q.zero : Q := ⟨0, 1⟩

/-- One. -/
def Q.one : Q := ⟨1, 1⟩

/-- The rational `n`. -/
def Q.ofNat (n : Nat) : Q := ⟨n, 1⟩

/-- Normalize a numerator/denominator pair: move the sign to the
numerator and divide by the greatest common divisor. -/
def Q.norm (n d : Int) : Q :=
  if d = 0 then ⟨0, 1⟩
  else
    let n₁ := if d < 0 then -n else n
    let dn : Nat := d.natAbs
    let g := Nat.gcd n₁.natAbs dn
    ⟨n₁ / (g : Int), dn / g⟩

/-- Addition. -/
def Q.add (a b : Q) : Q :=
  Q.norm (a.num * b.den + b.num * a.den) (a.den * b.den)

/-- Negation. -/
def Q.neg (a : Q) : Q := ⟨-a.num, a.den⟩

/-- Subtraction. -/
def Q.sub (a b : Q) : Q := Q.add a (Q.neg b)

/-- Multiplication. -/
def Q.mul (a b : Q) : Q :=
  Q.norm (a.num * b.num) (a.den * b.den)

/-- Reciprocal (of zero: zero). -/
def Q.inv (a : Q) : Q := Q.norm a.den a.num

/-- Division. -/
def Q.div (a b : Q) : Q := Q.mul a (Q.inv b)

/-- Natural power. -/
def Q.powNat (a : Q) : Nat → Q
  | 0 => Q.one
  | n + 1 => Q.mul a (Q.powNat a n)

/-- Integer power. -/
def Q.zpow (a : Q) : Int → Q
  | .ofNat n => Q.powNat a n
  | .negSucc n => Q.inv (Q.powNat a (n + 1))

/-! ### Units containers

Modelled from the spec: `UnitsContainer` (`pint/util.py` is not among the
sources) — an immutable mapping from unit name to integer exponent in
which zero exponents are pruned.  It is embedded as an association list
without duplicate keys; algebra produces new lists. -/

/-- A units container: association list from unit name to exponent. -/
abbrev UCont : Type := List (String × Int)

/-- Add `e` to the exponent of key `k`, pruning a resulting zero. -/
def UCont.addEntry : UCont → String → Int → UCont
  | [], k, e => if e = 0 then [] else [(k, e)]
  | (k₀, e₀) :: rest, k, e =>
    if k₀ = k then
      if e₀ + e = 0 then rest else (k, e₀ + e) :: rest
    else
      (k₀, e₀) :: UCont.addEntry rest k e

/-- Multiply two containers: exponents add per key. -/
def UCont.mul (a b : UCont) : UCont :=
  b.foldl (fun acc kv => UCont.addEntry acc kv.1 kv.2) a

/-- Invert a container: every exponent is negated. -/
def UCont.inv (a : UCont) : UCont :=
  a.map (fun kv => (kv.1, -kv.2))

/-- Raise a container to an integer power. -/
def UCont.zpow (a : UCont) (n : Int) : UCont :=
  if n = 0 then [] else a.map (fun kv => (kv.1, kv.2 * n))

/-- The keys of a container. -/
def UCont.keys (a : UCont) : List String := a.map Prod.fst

/-- Insertion sort of entries by key, used to compare containers as
multisets when the insertion order differs. -/
def UCont.insertSorted : String × Int → UCont → UCont
  | kv, [] => [kv]
  | kv, kv₀ :: rest =>
    if kv.1 < kv₀.1 then kv :: kv₀ :: rest
    else kv₀ :: UCont.insertSorted kv rest

/-- Entries sorted by key. -/
def UCont.sorted (a : UCont) : UCont :=
  a.foldr UCont.insertSorted []

/-- Structural equality up to entry order. -/
def UCont.equiv (a b : UCont) : Bool :=
  decide (UCont.sorted a = UCont.sorted b)

/-- Modelled from the spec: `_is_dim` (`pint/util.py`) — a key names a
dimension exactly when it matches the bracket pattern `[...]`. -/
def isDimName (s : String) : Bool :=
  pyStartsWith s "[" && pyEndsWithChar ']' s

/-! ### Expression parser

Modelled from the spec: the Parser Helper of §4.2 (`pint/util.py` is not
among the sources).  `parse` turns an arithmetic expression over `*`, `/`,
`**`/`^`, unary minus, parentheses, numeric literals and identifiers into
a numeric scale and a units container; juxtaposed factors multiply. -/

/-- A lexical token of the definition-value grammar. -/
inductive Tok : Type
  | num (q : Q)
  | ident (s : String)
  | mulT
  | divT
  | powT
  | lparen
  | rparen
  | minusT
deriving Repr, DecidableEq

/-- Fold decimal digits into a natural number. -/
def digitsToNat (ds : List Char) : Nat :=
  ds.foldl (fun a c => a * 10 + (c.toNat - 48)) 0

/-- Build the rational value of a numeric literal from its integer part,
fractional part and decimal exponent. -/
def ratOfParts (ip fp : List Char) (ex : Int) : Q :=
  Q.mul
    (Q.add (Q.ofNat (digitsToNat ip))
      (Q.div (Q.ofNat (digitsToNat fp))
        (Q.powNat (Q.ofNat 10) fp.length)))
    (Q.zpow (Q.ofNat 10) ex)

/-- Read a numeric literal (digits, optional fraction, optional decimal
exponent) from the head of the character stream. -/
def readNum (cs : List Char) : Except String (Q × List Char) :=
  let (ip, rest) := cs.span Char.isDigit
  let (fp, rest₂) :=
    match rest with
    | '.' :: r => r.span Char.isDigit
    | _ => ([], rest)
  match rest₂ with
  | 'e' :: r =>
    let (sgn, r₂) :=
      match r with
      | '-' :: r₃ => ((-1 : Int), r₃)
      | '+' :: r₃ => ((1 : Int), r₃)
      | _ => ((1 : Int), r)
    let (ed, r₄) := r₂.span Char.isDigit
    if ed = [] then .error "invalid exponent"
    else .ok (ratOfParts ip fp (sgn * digitsToNat ed), r₄)
  | _ => .ok (ratOfParts ip fp 0, rest₂)

/-- `true` for characters that may appear inside an identifier. -/
def isIdentChar (c : Char) : Bool :=
  c.isAlpha || c.isDigit || c = '_'

/-- Tokenize a definition-value expression. -/
def lexChars : Nat → List Char → Except String (List Tok)
  | 0, _ => .error "lexer fuel exhausted"
  | _ + 1, [] => .ok []
  | fuel + 1, c :: cs =>
    if c.isWhitespace then lexChars fuel cs
    else if c = '*' then
      match cs with
      | '*' :: rest => (lexChars fuel rest).map (Tok.powT :: ·)
      | _ => (lexChars fuel cs).map (Tok.mulT :: ·)
    else if c = '^' then (lexChars fuel cs).map (Tok.powT :: ·)
    else if c = '/' then (lexChars fuel cs).map (Tok.divT :: ·)
    else if c = '(' then (lexChars fuel cs).map (Tok.lparen :: ·)
    else if c = ')' then (lexChars fuel cs).map (Tok.rparen :: ·)
    else if c = '-' then (lexChars fuel cs).map (Tok.minusT :: ·)
    else if c = '[' then
      let (inner, rest) := cs.span (fun x => x ≠ ']')
      match rest with
      | ']' :: rest₂ =>
        (lexChars fuel rest₂).map
          (Tok.ident ("[" ++ String.mk inner ++ "]") :: ·)
      | _ => .error "unmatched bracket"
    else if c.isDigit || c = '.' then
      match readNum (c :: cs) with
      | .error e => .error e
      | .ok (q, rest) => (lexChars fuel rest).map (Tok.num q :: ·)
    else if c.isAlpha || c = '_' then
      let (name, rest) := (c :: cs).span isIdentChar
      (lexChars fuel rest).map (Tok.ident (String.mk name) :: ·)
    else .error ("unexpected character " ++ String.mk [c])

/-- The value of a parsed (sub)expression: a numeric scale together with a
units container, mirroring the Parser Helper's dict-with-scale. -/
structure PHVal : Type where
  scale : Q
  units : UCont
deriving Repr, DecidableEq

/-- Multiplication of parsed values. -/
def PHVal.mul (a b : PHVal) : PHVal :=
  ⟨Q.mul a.scale b.scale, UCont.mul a.units b.units⟩

/-- Division of parsed values: the numeric scale divides, the right
operand's exponents flip sign. -/
def PHVal.div (a b : PHVal) : PHVal :=
  ⟨Q.div a.scale b.scale, UCont.mul a.units (UCont.inv b.units)⟩

/-- Integer power of a parsed value. -/
def PHVal.zpow (a : PHVal) (n : Int) : PHVal :=
  ⟨Q.zpow a.scale n, UCont.zpow a.units n⟩

mutual

/-- Parse an atom: a number, an identifier, or a parenthesized
expression. -/
def parseAtom : Nat → List Tok → Except String (PHVal × List Tok)
  | 0, _ => .error "fuel exhausted"
  | fuel + 1, toks =>
    match toks with
    | Tok.num q :: rest => .ok (⟨q, []⟩, rest)
    | Tok.ident s :: rest => .ok (⟨Q.one, [(s, 1)]⟩, rest)
    | Tok.lparen :: rest =>
      match parseExpr fuel rest with
      | .error e => .error e
      | .ok (v, rest₂) =>
        match rest₂ with
        | Tok.rparen :: rest₃ => .ok (v, rest₃)
        | _ => .error "expected closing paren"
    | _ => .error "expected atom"

/-- Parse an atom optionally followed by a power operator; the exponent
binds tighter than multiplication and must evaluate to an integer. -/
def parsePow : Nat → List Tok → Except String (PHVal × List Tok)
  | 0, _ => .error "fuel exhausted"
  | fuel + 1, toks =>
    match parseAtom fuel toks with
    | .error e => .error e
    | .ok (a, rest) =>
      match rest with
      | Tok.powT :: rest₂ =>
        match parseUnary fuel rest₂ with
        | .error e => .error e
        | .ok (b, rest₃) =>
          if b.units = ([] : UCont) ∧ b.scale.den = 1 then
            .ok (PHVal.zpow a b.scale.num, rest₃)
          else .error "exponent must be an integer"
      | _ => .ok (a, rest)

/-- Parse a possibly negated power expression. -/
def parseUnary : Nat → List Tok → Except String (PHVal × List Tok)
  | 0, _ => .error "fuel exhausted"
  | fuel + 1, toks =>
    match toks with
    | Tok.minusT :: rest =>
      match parseUnary fuel rest with
      | .error e => .error e
      | .ok (a, rest₂) => .ok (⟨Q.neg a.scale, a.units⟩, rest₂)
    | _ => parsePow fuel toks

/-- Parse the rest of a product after its first factor; `*`, `/` and
juxtaposition all continue the product. -/
def parseProdAux : Nat → PHVal → List Tok → Except String (PHVal × List Tok)
  | 0, _, _ => .error "fuel exhausted"
  | fuel + 1, acc, toks =>
    match toks with
    | Tok.mulT :: rest =>
      match parseUnary fuel rest with
      | .error e => .error e
      | .ok (b, rest₂) => parseProdAux fuel (PHVal.mul acc b) rest₂
    | Tok.divT :: rest =>
      match parseUnary fuel rest with
      | .error e => .error e
      | .ok (b, rest₂) => parseProdAux fuel (PHVal.div acc b) rest₂
    | Tok.num _ :: _ =>
      match parseUnary fuel toks with
      | .error e => .error e
      | .ok (b, rest₂) => parseProdAux fuel (PHVal.mul acc b) rest₂
    | Tok.ident _ :: _ =>
      match parseUnary fuel toks with
      | .error e => .error e
      | .ok (b, rest₂) => parseProdAux fuel (PHVal.mul acc b) rest₂
    | Tok.lparen :: _ =>
      match parseUnary fuel toks with
      | .error e => .error e
      | .ok (b, rest₂) => parseProdAux fuel (PHVal.mul acc b) rest₂
    | _ => .ok (acc, toks)

/-- Parse a product of unary expressions. -/
def parseExpr : Nat → List Tok → Except String (PHVal × List Tok)
  | 0, _ => .error "fuel exhausted"
  | fuel + 1, toks =>
    match parseUnary fuel toks with
    | .error e => .error e
    | .ok (a, rest) => parseProdAux fuel a rest

end

/-- Modelled from the spec: `ParserHelper.from_string` (`pint/util.py`) —
parse a definition value into a scale and a units container; an empty or
all-blank string parses to scale 1 with no units. -/
def parseHelperFromString (s : String) : Except String PHVal :=
  match lexChars (s.length + 1) s.toList with
  | .error e => .error e
  | .ok [] => .ok ⟨Q.one, []⟩
  | .ok toks =>
    match parseExpr ((toks.length + 4) * 8) toks with
    | .error e => .error e
    | .ok (v, []) => .ok v
    | .ok (_, _ :: _) => .error "trailing tokens"

/-- Modelled from the spec: a restricted numeric-literal evaluator
standing in for Python's `eval` on prefix scales and offset modifiers
(§9); accepts an optionally negated numeric literal, or a quotient of two
such literals. -/
def evalNumber (s : String) : Except String Q :=
  match parseHelperFromString s with
  | .error e => .error e
  | .ok v =>
    if v.units = ([] : UCont) then .ok v.scale
    else .error "not a number"

/-! ### Converters

Modelled from the spec: §3 Converter (`pint/converters.py` is not among
the sources) — either a pure scale or an affine scale-plus-offset rule;
`is_multiplicative` holds only for the pure scale kind. -/

/-- A unit-to-reference conversion rule. -/
inductive Converter : Type
  | scaleConverter (scale : Q)
  | offsetConverter (scale offset : Q)
deriving Repr, DecidableEq

/-- `to_reference`: `x*scale` for a scale converter, `x*scale + offset`
for an offset converter. -/
def Converter.toReference : Converter → Q → Q
  | .scaleConverter s, x => Q.mul x s
  | .offsetConverter s o, x => Q.add (Q.mul x s) o

/-- `from_reference`: the inverse direction. -/
def Converter.fromReference : Converter → Q → Q
  | .scaleConverter s, x => Q.div x s
  | .offsetConverter s o, x => Q.div (Q.sub x o) s

/-- `is_multiplicative`: true only for the pure scale kind. -/
def Converter.is_multiplicative : Converter → Bool
  | .scaleConverter _ => true
  | .offsetConverter _ _ => false

/-! ### Definition model (`pint/definitions.py`) -/

/-- A parsed definition: the tagged variants built by
`Definition.from_string` and the subclass constructors in
`pint/definitions.py`.  Each variant stores the fields its Python
constructor leaves on the instance. -/
inductive Definition : Type
  | unitDef (name : String) (symbol : Option String) (aliases : List String)
      (converter : Converter) (reference : UCont) (is_base : Bool)
  | dimensionDef (name : String) (symbol : Option String)
      (aliases : List String) (reference : UCont) (is_base : Bool)
  | prefixDef (name : String) (symbol : Option String) (aliases : List String)
      (converter : Converter)
  | aliasDef (name : String) (aliases : List String)
deriving Repr, DecidableEq

/-- The four definition kinds, for stating dispatch facts. -/
inductive DefKind : Type
  | unitK
  | dimensionK
  | prefixK
  | aliasK
deriving Repr, DecidableEq

/-- The kind of a definition. -/
def Definition.kind : Definition → DefKind
  | .unitDef .. => .unitK
  | .dimensionDef .. => .dimensionK
  | .prefixDef .. => .prefixK
  | .aliasDef .. => .aliasK

/-- The `_name` attribute. -/
def Definition.name : Definition → String
  | .unitDef n .. => n
  | .dimensionDef n .. => n
  | .prefixDef n .. => n
  | .aliasDef n _ => n

/-- The raw `_symbol` attribute (alias definitions store `None`). -/
def Definition.symbolField : Definition → Option String
  | .unitDef _ s .. => s
  | .dimensionDef _ s .. => s
  | .prefixDef _ s .. => s
  | .aliasDef _ _ => none

/-- The `symbol` property: `self._symbol or self._name`, so a `None` or
empty stored symbol falls back to the name. -/
def Definition.symbol (d : Definition) : String :=
  match d.symbolField with
  | none => d.name
  | some s => if s = "" then d.name else s

/-- The `has_symbol` property: `bool(self._symbol)`. -/
def Definition.has_symbol (d : Definition) : Bool :=
  match d.symbolField with
  | none => false
  | some s => s ≠ ""

/-- The `_aliases` attribute. -/
def Definition.aliases : Definition → List String
  | .unitDef _ _ a .. => a
  | .dimensionDef _ _ a .. => a
  | .prefixDef _ _ a _ => a
  | .aliasDef _ a => a

/-- The `_converter` attribute (`None` for dimension and alias
definitions). -/
def Definition.converter : Definition → Option Converter
  | .unitDef _ _ _ c .. => some c
  | .dimensionDef .. => none
  | .prefixDef _ _ _ c => some c
  | .aliasDef .. => none

/-- The `reference` attribute of unit and dimension definitions. -/
def Definition.reference : Definition → Option UCont
  | .unitDef _ _ _ _ r _ => some r
  | .dimensionDef _ _ _ r _ => some r
  | .prefixDef .. => none
  | .aliasDef .. => none

/-- The `is_base` attribute of unit and dimension definitions. -/
def Definition.isBase : Definition → Option Bool
  | .unitDef _ _ _ _ _ b => some b
  | .dimensionDef _ _ _ _ b => some b
  | .prefixDef .. => none
  | .aliasDef .. => none

/-- The `is_multiplicative` property, when a converter is present. -/
def Definition.is_multiplicative (d : Definition) : Option Bool :=
  d.converter.map Converter.is_multiplicative

/-- `PrefixDefinition.__init__` on a string value: the scale is evaluated
as a number, aliases and a truthy symbol are stripped of `-` on both
sides. -/
def PrefixDefinition.make (name : String) (symbol : Option String)
    (aliases : List String) (value : String) : Except String Definition :=
  match evalNumber value with
  | .error e => .error e
  | .ok q =>
    let aliases := aliases.map (stripChar '-')
    let symbol : Option String :=
      match symbol with
      | none => none
      | some s => if s = "" then some s else some (stripChar '-' s)
    .ok (.prefixDef name symbol aliases (.scaleConverter q))

/-- Parse the `;`-separated modifier part of a unit value into a
key/value list; each part must be a single `key: value` pair. -/
def parseModifiers (m : String) : Except String (List (String × Q)) :=
  match splitChar m ':' with
  | [k, v] =>
    match evalNumber v with
    | .error e => .error e
    | .ok q => .ok [(pyStrip k, q)]
  | _ => .error "ValueError: modifier is not a single key: value pair"

/-- `UnitDefinition.__init__` on a string value: split off at most one
`;`-modifier part, parse the value, compute `is_base` from the parsed
reference's keys (no dimension key → derived; all dimension keys → base;
a mixture → hard error), and select an offset converter exactly when a
nonzero `offset` modifier is present. -/
def UnitDefinition.make (name : String) (symbol : Option String)
    (aliases : List String) (value : String) : Except String Definition :=
  match splitChar value ';' with
  | [] => .error "unreachable"
  | _ :: _ :: _ :: _ => .error "ValueError: too many values to unpack"
  | cvParts =>
    let cv := cvParts.headD ""
    let modsE : Except String (List (String × Q)) :=
      match cvParts with
      | [_, m] => parseModifiers m
      | _ => .ok []
    match modsE with
    | .error e => .error e
    | .ok mods =>
      match parseHelperFromString cv with
      | .error e => .error e
      | .ok ph =>
        if ¬ (UCont.keys ph.units).any isDimName then
          let off := ((mods.lookup "offset").getD Q.zero)
          let conv : Converter :=
            if off ≠ Q.zero then .offsetConverter ph.scale off
            else .scaleConverter ph.scale
          .ok (.unitDef name symbol aliases conv ph.units false)
        else if (UCont.keys ph.units).all isDimName then
          let off := ((mods.lookup "offset").getD Q.zero)
          let conv : Converter :=
            if off ≠ Q.zero then .offsetConverter ph.scale off
            else .scaleConverter ph.scale
          .ok (.unitDef name symbol aliases conv ph.units true)
        else
          .error "Cannot mix dimensions and units in the same definition."

/-- `DimensionDefinition.__init__` on a string value: an empty parsed
reference marks a base dimension, an all-dimension reference a derived
one, anything else is a hard error. -/
def DimensionDefinition.make (name : String) (symbol : Option String)
    (aliases : List String) (value : String) : Except String Definition :=
  match parseHelperFromString value with
  | .error e => .error e
  | .ok ph =>
    if ph.units = ([] : UCont) then
      .ok (.dimensionDef name symbol aliases ph.units true)
    else if (UCont.keys ph.units).all isDimName then
      .ok (.dimensionDef name symbol aliases ph.units false)
    else
      .error "Base dimensions must be referenced to None."

/-- Lines 49–54 of `pint/definitions.py`: from the stripped tokens after
the value, drop empty tokens, take the first remaining token as the
symbol (`_` meaning no symbol), and keep the rest minus `_` placeholders
as aliases. -/
def symbolAndAliases (raw : List String) : Option String × List String :=
  let aliases := raw.filter (fun x => x ≠ "")
  let (symbol, rest) : Option String × List String :=
    match aliases with
    | [] => (none, [])
    | s :: rest => (some s, rest)
  let symbol := if symbol = some "_" then none else symbol
  (symbol, rest.filter (fun x => x ≠ "_"))

/-- The transformation `PrefixDefinition.__init__` applies to a truthy
symbol: strip `-` from both ends. -/
def stripSymbol (symbol : Option String) : Option String :=
  match symbol with
  | none => none
  | some s => if s = "" then some s else some (stripChar '-' s)

/-- `Definition.from_string`: split at the first `=` into name and
remainder, split the remainder at every `=` into stripped tokens,
special-case `@alias ` names, and dispatch on the name's shape to the
dimension / prefix / unit constructors. -/
def Definition.from_string (line : String) : Except String Definition :=
  match splitFirst line '=' with
  | none => .error "ValueError: not enough values to unpack"
  | some (n, rest) =>
    let name := pyStrip n
    let result := (splitChar rest '=').map pyStrip
    if pyStartsWith name "@alias " then
      .ok (.aliasDef (pyLstrip (name.drop 7)) result)
    else
      match result with
      | [] => .error "unreachable"
      | value :: rawAliases =>
        let sa := symbolAndAliases rawAliases
        if pyStartsWith name "[" then
          DimensionDefinition.make name sa.1 sa.2 value
        else if pyEndsWithChar '-' name then
          PrefixDefinition.make (rstripChar '-' name) sa.1 sa.2 value
        else
          UnitDefinition.make name sa.1 sa.2 value

/-! ### Error taxonomy

Modelled from the spec: §7 (`pint/errors.py` is not among the sources;
`pint/testsuite/test_errors.py` pins the exact message formats).  Each
error carries its constructor arguments and the optional filename/lineno
attributes a loader may attach after construction. -/

/-- The error kinds of the taxonomy. -/
inductive PintError : Type
  | definitionSyntaxError (msg : String) (filename : Option String)
      (lineno : Option Nat)
  | redefinitionError (defName : String) (defType : String)
      (filename : Option String) (lineno : Option Nat)
  | undefinedUnitError (unitNames : List String)
  | dimensionalityError (units1 units2 : String) (dim1 dim2 : Option String)
      (extraMsg : String)
  | offsetUnitCalculusError (unitNames : List String)
deriving Repr, DecidableEq

/-- The loader-location part of a message: `"While opening <file>, in
line <n>: "` with either part omittable. -/
def locPart : Option String → Option Nat → String
  | some f, some n => "While opening " ++ f ++ ", in line " ++ toString n ++ ": "
  | some f, none => "While opening " ++ f ++ ": "
  | none, some n => "In line " ++ toString n ++ ": "
  | none, none => ""

/-- A single-quote string, built from the character code to keep quote
characters out of the literals. -/
def sq : String := String.mk [Char.ofNat 39]

/-- Wrap a name in single quotes. -/
def quoted (u : String) : String := sq ++ u ++ sq

/-- Join unit names, each in single quotes, separated by commas. -/
def joinQuoted (us : List String) : String :=
  String.intercalate ", " (us.map quoted)

/-- The deterministic human-readable rendering of an error, following the
formats pinned by `test_errors.py`. -/
def renderError : PintError → String
  | .definitionSyntaxError msg f l => locPart f l ++ msg
  | .redefinitionError n t f l =>
    locPart f l ++ "Cannot redefine " ++ quoted n ++ " (" ++ t ++ ")"
  | .undefinedUnitError us =>
    match us with
    | [u] => quoted u ++ " is not defined in the unit registry"
    | _ => "(" ++ joinQuoted us ++ ") are not defined in the unit registry"
  | .dimensionalityError u1 u2 d1 d2 ex =>
    match d1, d2 with
    | none, none =>
      "Cannot convert from " ++ quoted u1 ++ " to " ++ quoted u2 ++ ex
    | d1, d2 =>
      "Cannot convert from " ++ quoted u1 ++ " (" ++ d1.getD "" ++ ") to " ++
        quoted u2 ++ " (" ++ d2.getD "" ++ ")" ++ ex
  | .offsetUnitCalculusError us =>
    "Ambiguous operation with offset unit (" ++ String.intercalate ", " us ++
      "). See https://pint.readthedocs.io/en/latest/nonmult.html for guidance."

/-- Attach loader location attributes after construction (a no-op on the
kinds that do not carry them). -/
def attachFileLine (e : PintError) (f : Option String) (l : Option Nat) :
    PintError :=
  match e with
  | .definitionSyntaxError msg _ _ => .definitionSyntaxError msg f l
  | .redefinitionError n t _ _ => .redefinitionError n t f l
  | e => e

/-- The registry-independent serialized form of an error: a kind tag plus
flat payload fields, the analogue of the pickle reduction. -/
structure Pickled : Type where
  tag : Nat
  args : List String
  optA : Option String
  optB : Option String
  lineno : Option Nat
deriving Repr, DecidableEq

/-- Serialize an error to its flat form. -/
def serializeError : PintError → Pickled
  | .definitionSyntaxError msg f l => ⟨0, [msg], f, none, l⟩
  | .redefinitionError n t f l => ⟨1, [n, t], f, none, l⟩
  | .undefinedUnitError us => ⟨2, us, none, none, none⟩
  | .dimensionalityError u1 u2 d1 d2 ex => ⟨3, [u1, u2, ex], d1, d2, none⟩
  | .offsetUnitCalculusError us => ⟨4, us, none, none, none⟩

/-- Deserialize a flat form back to an error, without any registry. -/
def deserializeError (p : Pickled) : Option PintError :=
  if p.tag = 0 then
    match p.args with
    | [msg] => some (.definitionSyntaxError msg p.optA p.lineno)
    | _ => none
  else if p.tag = 1 then
    match p.args with
    | [n, t] => some (.redefinitionError n t p.optA p.lineno)
    | _ => none
  else if p.tag = 2 then some (.undefinedUnitError p.args)
  else if p.tag = 3 then
    match p.args with
    | [u1, u2, ex] => some (.dimensionalityError u1 u2 p.optA p.optB ex)
    | _ => none
  else if p.tag = 4 then some (.offsetUnitCalculusError p.args)
  else none

/-! ### Conversion core

Modelled from the spec: §4.4 (`pint/registry.py` is not among the
sources) — a registry maps each unit name to its base-units reduction,
`get_base_units` reduces a container multiplicatively, and `convert`
checks dimensional compatibility and applies the factor quotient.  Only
the multiplicative path is modelled; the claims below exercise no offset
units through `convert`. -/

/-- A registry of multiplicative units: each name maps to its cumulative
factor and base-units container. -/
structure Registry : Type where
  baseUnits : List (String × (Q × UCont))
deriving Repr, DecidableEq

/-- Base-units reduction of one name. -/
def Registry.baseOf (reg : Registry) (name : String) : Option (Q × UCont) :=
  reg.baseUnits.lookup name

/-- `get_base_units` on a container: multiply the per-name reductions
raised to their exponents. -/
def Registry.getBaseUnits (reg : Registry) : UCont → Except String (Q × UCont)
  | [] => .ok (Q.one, [])
  | (name, e) :: rest =>
    match reg.baseOf name with
    | none => .error ("UndefinedUnitError: " ++ name)
    | some (f, b) =>
      match reg.getBaseUnits rest with
      | .error err => .error err
      | .ok (fr, br) => .ok (Q.mul (Q.zpow f e) fr, UCont.mul (UCont.zpow b e) br)

/-- `convert` on magnitudes: equal containers pass through, compatible
dimensionalities convert by the factor quotient, anything else is a
dimensionality error. -/
def Registry.convertMag (reg : Registry) (value : Q) (src dst : UCont) :
    Except String Q :=
  if src = dst then .ok value
  else
    match reg.getBaseUnits src, reg.getBaseUnits dst with
    | .ok (fs, bs), .ok (fd, bd) =>
      if UCont.equiv bs bd then .ok (Q.mul value (Q.div fs fd))
      else .error "DimensionalityError"
    | .error e, _ => .error e
    | _, .error e => .error e

/-! ### Wrapping helpers (`pint/registry_helpers.py`)

Runtime argument values are either bare numbers or quantities; the
declared per-parameter specs are `None`, a units container, or an
`=`-led reference. -/

/-- A runtime value passed to a wrapped function. -/
inductive PyValue : Type
  | raw (x : Q)
  | quantity (mag : Q) (units : UCont)
deriving Repr, DecidableEq

/-- `getattr(value, "_magnitude", value)`. -/
def PyValue.magnitudeOr : PyValue → PyValue
  | .quantity m _ => .raw m
  | v => v

/-- The magnitude of a value (`getattr(value, "_magnitude", value)` read
as a number). -/
def PyValue.magOf : PyValue → Q
  | .quantity m _ => m
  | .raw x => x

/-- `getattr(value, "_units", UnitsContainer({}))`. -/
def PyValue.unitsOf : PyValue → UCont
  | .quantity _ u => u
  | .raw _ => []

/-- Integer power of a runtime value. -/
def PyValue.zpowV : PyValue → Int → PyValue
  | .raw x, n => .raw (Q.zpow x n)
  | .quantity m u, n => .quantity (Q.zpow m n) (UCont.zpow u n)

/-- Product of two runtime values. -/
def PyValue.mulV : PyValue → PyValue → PyValue
  | .raw a, .raw b => .raw (Q.mul a b)
  | .raw a, .quantity m u => .quantity (Q.mul a m) u
  | .quantity m u, .raw b => .quantity (Q.mul m b) u
  | .quantity m u, .quantity m₂ u₂ => .quantity (Q.mul m m₂) (UCont.mul u u₂)

/-- A declared per-parameter unit spec, after `_to_units_container`:
`None`, a plain units container, or an `=`-led reference container. -/
inductive ArgSpec : Type
  | skip
  | unitsOf (u : UCont)
  | refOf (u : UCont)
deriving Repr, DecidableEq

/-- The classification `_parse_wrap_args` gives each position. -/
inductive ParsedArg : Type
  | skipArg
  | unitArg (u : UCont)
  | defArg (key : String)
  | depArg (u : UCont)
deriving Repr, DecidableEq

/-- First pass of `_parse_wrap_args`: classify each position, threading
the set of names already used as definitions. -/
def parseWrapArgsAux : List String → List ArgSpec →
    List String × List ParsedArg
  | defs, [] => (defs, [])
  | defs, a :: rest =>
    match a with
    | .skip =>
      let (d, l) := parseWrapArgsAux defs rest
      (d, .skipArg :: l)
    | .unitsOf u =>
      let (d, l) := parseWrapArgsAux defs rest
      (d, .unitArg u :: l)
    | .refOf u =>
      match u with
      | [(key, e)] =>
        if e = 1 ∧ key ∉ defs then
          let (d, l) := parseWrapArgsAux (defs ++ [key]) rest
          (d, .defArg key :: l)
        else
          let (d, l) := parseWrapArgsAux defs rest
          (d, .depArg u :: l)
      | _ =>
        let (d, l) := parseWrapArgsAux defs rest
        (d, .depArg u :: l)

/-- `_parse_wrap_args`: classify every position, then check that each
dependent position only references defined names. -/
def parseWrapArgs (args : List ArgSpec) : Except String (List ParsedArg) :=
  let (defs, parsed) := parseWrapArgsAux [] args
  if parsed.all (fun p =>
      match p with
      | .depArg u => (UCont.keys u).all (fun k => decide (k ∈ defs))
      | _ => true) then
    .ok parsed
  else
    .error "ValueError: Found a missing token while wrapping a function"

/-- `_replace_units`: fold the recorded runtime values into the declared
reference template and read off the resulting units. -/
def replaceUnits (orig : UCont) (vbn : List (String × PyValue)) : UCont :=
  let q := orig.foldl
    (fun acc kv =>
      PyValue.mulV acc (PyValue.zpowV ((vbn.lookup kv.1).getD (.raw Q.one)) kv.2))
    (.raw Q.one)
  match q with
  | .quantity _ u => u
  | .raw _ => []

/-- First pass of `_converter`: record the runtime value of every
definition position by name. -/
def collectVbn : List ParsedArg → List PyValue → List (String × PyValue)
  | .defArg k :: ps, v :: vs => (k, v) :: collectVbn ps vs
  | _ :: ps, _ :: vs => collectVbn ps vs
  | _, _ => []

/-- The per-position action of `_converter`: definitions are stripped to
magnitudes, dependent positions convert into the substituted template,
unit positions convert a quantity or (strict) reject a bare value. -/
def convertOne (reg : Registry) (strict : Bool)
    (vbn : List (String × PyValue)) : ParsedArg → PyValue →
    Except String PyValue
  | .skipArg, v => .ok v
  | .defArg _, v => .ok (PyValue.magnitudeOr v)
  | .depArg u, v =>
    (reg.convertMag (PyValue.magOf v) (PyValue.unitsOf v)
      (replaceUnits u vbn)).map .raw
  | .unitArg u, v =>
    match v with
    | .quantity m vu => (reg.convertMag m vu u).map .raw
    | .raw x =>
      if strict then
        .error ("ValueError: A wrapped function using strict=True " ++
          "requires quantity for all arguments with not None units.")
      else .ok (.raw x)

/-- Apply `convertOne` position by position. -/
def convertAll (reg : Registry) (strict : Bool)
    (vbn : List (String × PyValue)) : List ParsedArg → List PyValue →
    Except String (List PyValue)
  | [], [] => .ok []
  | p :: ps, v :: vs =>
    match convertOne reg strict vbn p v with
    | .error e => .error e
    | .ok w =>
      match convertAll reg strict vbn ps vs with
      | .error e => .error e
      | .ok ws => .ok (w :: ws)
  | _, _ => .error "arity mismatch"

/-- Modelled from the spec: §6 — a quantity is constructible from a
magnitude and a units container; re-wrapping a quantity keeps its
magnitude. -/
def mkQuantity (v : PyValue) (u : UCont) : PyValue :=
  match v with
  | .raw x => .quantity x u
  | .quantity m _ => .quantity m u

/-- One call through a `wraps(ureg, ret, args, strict)`-wrapped function:
parse the declared specs, convert the incoming values, run the inner
function on the converted values, and re-attach units to a single return
value (`None` return spec leaves the result untouched).  The
tuple-return path of the source is not exercised by the claims and is
not modelled. -/
def wrapsApply (reg : Registry) (ret : ArgSpec) (args : List ArgSpec)
    (strict : Bool) (func : List PyValue → PyValue)
    (values : List PyValue) : Except String PyValue :=
  match parseWrapArgs args with
  | .error e => .error e
  | .ok parsed =>
    let vbn := collectVbn parsed values
    match convertAll reg strict vbn parsed values with
    | .error e => .error e
    | .ok newValues =>
      let result := func newValues
      match ret with
      | .skip => .ok result
      | .unitsOf u => .ok (mkQuantity result u)
      | .refOf u => .ok (mkQuantity result (replaceUnits u vbn))

/-! ### Application registry handle (`pint/__init__.py`) -/

/-- A runtime object that may be passed to `set_application_registry`:
the two accepted registry classes, or anything else. -/
inductive RegObj : Type
  | unitRegistry (id : Nat)
  | lazyRegistry (id : Nat)
  | otherObject (id : Nat)
deriving Repr, DecidableEq

/-- `isinstance(registry, (LazyRegistry, UnitRegistry))`. -/
def isRegistryInstance : RegObj → Bool
  | .unitRegistry _ => true
  | .lazyRegistry _ => true
  | .otherObject _ => false

/-- The process-wide state holding `_APP_REGISTRY`. -/
structure AppState : Type where
  appRegistry : RegObj
deriving Repr, DecidableEq

/-- The printed type name of a runtime object, for the TypeError
message. -/
def regTypeName : RegObj → String
  | .unitRegistry _ => "UnitRegistry"
  | .lazyRegistry _ => "LazyRegistry"
  | .otherObject _ => "other"

/-- `set_application_registry`: raise `TypeError` (leaving the state
untouched) unless the argument is a registry instance, else store it. -/
def set_application_registry (registry : RegObj) (s : AppState) :
    Option String × AppState :=
  if ¬ isRegistryInstance registry then
    (some ("TypeError: Expected UnitRegistry; got " ++ regTypeName registry), s)
  else
    (none, { appRegistry := registry })

/-- `get_application_registry`: return the stored registry. -/
def get_application_registry (s : AppState) : RegObj :=
  s.appRegistry

/-! ### Concrete sample data used when instantiating the theorems -/

/-- A container holding one meter. -/
def meterC : UCont := [("meter", 1)]

/-- A container holding one centimeter. -/
def cmC : UCont := [("centimeter", 1)]

/-- A registry knowing `meter` (a base unit) and `centimeter`
(= meter/100). -/
def regSample : Registry :=
  ⟨[("meter", (Q.one, [("meter", 1)])),
    ("centimeter", (⟨1, 100⟩, [("meter", 1)]))]⟩

/-- String concatenation is associative. -/
theorem strAppendAssoc (a b c : String) : a ++ b ++ c = a ++ (b ++ c) := by
  cases a
  cases b
  cases c
  show String.mk _ = String.mk _
  rw [List.append_assoc]

/-- A successful `UnitDefinition.make` returns a unit definition carrying
the name, symbol and aliases it was given. -/
theorem unit_make_fields (name : String) (symbol : Option String)
    (aliases : List String) (value : String) (d : Definition)
    (h : UnitDefinition.make name symbol aliases value = .ok d) :
    d.kind = .unitK ∧ d.name = name ∧ d.symbolField = symbol ∧
      d.aliases = aliases := by
  unfold UnitDefinition.make at h
  repeat'
    first
      | exact Except.noConfusion h
      | (injection h with h; subst h; exact ⟨rfl, rfl, rfl, rfl⟩)
      | split at h
      | simp only [] at h

/-- A successful `DimensionDefinition.make` returns a dimension
definition carrying the name it was given. -/
theorem dimension_make_fields (name : String) (symbol : Option String)
    (aliases : List String) (value : String) (d : Definition)
    (h : DimensionDefinition.make name symbol aliases value = .ok d) :
    d.kind = .dimensionK ∧ d.name = name := by
  unfold DimensionDefinition.make at h
  repeat'
    first
      | exact Except.noConfusion h
      | (injection h with h; subst h; exact ⟨rfl, rfl⟩)
      | split at h
      | simp only [] at h

/-- A successful `PrefixDefinition.make` returns a prefix definition
carrying the name it was given. -/
theorem prefix_make_fields (name : String) (symbol : Option String)
    (aliases : List String) (value : String) (d : Definition)
    (h : PrefixDefinition.make name symbol aliases value = .ok d) :
    d.kind = .prefixK ∧ d.name = name := by
  unfold PrefixDefinition.make at h
  repeat'
    first
      | exact Except.noConfusion h
      | (injection h with h; subst h; exact ⟨rfl, rfl⟩)
      | split at h
      | simp only [] at h

/-- `symbolAndAliases` in closed form: empty tokens are dropped, the
first remaining token (unless `_`) is the symbol, the rest minus `_`
are the aliases. -/
theorem symbolAndAliases_eq (raw : List String) :
    symbolAndAliases raw =
      ((match raw.filter (fun x => x ≠ "") with
        | [] => none
        | s :: _ => if s = "_" then none else some s),
        ((raw.filter (fun x => x ≠ "")).drop 1).filter
          (fun x => x ≠ "_")) := by
  unfold symbolAndAliases
  cases hf : raw.filter (fun x => x ≠ "") with
  | nil => simp
  | cons s rest =>
    by_cases hs : s = "_" <;> simp [hs]

/-- C2: `Definition.from_string` splits the line at the first `=`,
splits the remainder at every `=` into stripped tokens, turns an
`@alias `-led name into an alias definition over all remaining tokens,
and otherwise dispatches a leading `[` to a dimension definition, a
trailing `-` (stripped from the stored name) to a prefix definition, and
anything else to a unit definition. -/
theorem from_string_dispatch (line n rest : String)
    (h : splitFirst line '=' = some (n, rest)) :
    (pyStartsWith (pyStrip n) "@alias " = true →
      Definition.from_string line =
        .ok (.aliasDef (pyLstrip ((pyStrip n).drop 7))
          ((splitChar rest '=').map pyStrip))) ∧
    (pyStartsWith (pyStrip n) "@alias " = false →
      pyStartsWith (pyStrip n) "[" = true →
      ∀ d, Definition.from_string line = .ok d →
        d.kind = .dimensionK ∧ d.name = pyStrip n) ∧
    (pyStartsWith (pyStrip n) "@alias " = false →
      pyStartsWith (pyStrip n) "[" = false →
      pyEndsWithChar '-' (pyStrip n) = true →
      ∀ d, Definition.from_string line = .ok d →
        d.kind = .prefixK ∧ d.name = rstripChar '-' (pyStrip n)) ∧
    (pyStartsWith (pyStrip n) "@alias " = false →
      pyStartsWith (pyStrip n) "[" = false →
      pyEndsWithChar '-' (pyStrip n) = false →
      ∀ d, Definition.from_string line = .ok d →
        d.kind = .unitK ∧ d.name = pyStrip n) := by
  refine ⟨?_, ?_, ?_, ?_⟩
  · intro ha
    simp [Definition.from_string, h, ha]
  · intro ha hb d hd
    simp only [Definition.from_string, h, ha, hb] at hd
    rcases hsp : (splitChar rest '=').map pyStrip with _ | ⟨value, raws⟩ <;>
      simp only [hsp, Bool.false_eq_true, if_false, if_true] at hd
    · exact Except.noConfusion hd
    · exact dimension_make_fields _ _ _ _ _ hd
  · intro ha hb hc d hd
    simp only [Definition.from_string, h, ha, hb, hc] at hd
    rcases hsp : (splitChar rest '=').map pyStrip with _ | ⟨value, raws⟩ <;>
      simp only [hsp, Bool.false_eq_true, if_false, if_true] at hd
    · exact Except.noConfusion hd
    · exact prefix_make_fields _ _ _ _ _ hd
  · intro ha hb hc d hd
    simp only [Definition.from_string, h, ha, hb, hc] at hd
    rcases hsp : (splitChar rest '=').map pyStrip with _ | ⟨value, raws⟩ <;>
      simp only [hsp, Bool.false_eq_true, if_false, if_true] at hd
    · exact Except.noConfusion hd
    · exact (unit_make_fields _ _ _ _ _ hd).imp id And.left

/-- C2 witness: the line `meter = [length] = m` goes through the unit
branch and stores the stripped name. -/
theorem from_string_dispatch_witness :
    (splitFirst "meter = [length] = m" '=' =
      some ("meter ", " [length] = m")) ∧
    (Definition.kind (.unitDef "meter" (some "m") [] (.scaleConverter Q.one)
        [("[length]", 1)] true) = .unitK ∧
      Definition.name (.unitDef "meter" (some "m") [] (.scaleConverter Q.one)
        [("[length]", 1)] true) = pyStrip "meter ") :=
  ⟨by decide,
    (from_string_dispatch "meter = [length] = m" "meter " " [length] = m"
        (by decide)).2.2.2 (by decide) (by decide) (by decide)
      (.unitDef "meter" (some "m") [] (.scaleConverter Q.one)
        [("[length]", 1)] true) (by rfl)⟩

/-- C4 counterexample: in `watt = 5 = = W` the first `=`-separated token
after the value is the empty token, yet the stored symbol is `W` (the
first non-empty token) and the stored aliases are empty — the empty
token is dropped before the symbol slot is assigned, not kept in it. -/
theorem from_string_symbol_slot_cex :
    Definition.from_string "watt = 5 = = W" =
      .ok (.unitDef "watt" (some "W") [] (.scaleConverter ⟨5, 1⟩) [] false) ∧
    Definition.symbolField
      (.unitDef "watt" (some "W") [] (.scaleConverter ⟨5, 1⟩) [] false) ≠
      some "" ∧
    Definition.aliases
      (.unitDef "watt" (some "W") [] (.scaleConverter ⟨5, 1⟩) [] false) ≠
      ["W"] :=
  ⟨rfl, by decide, by decide⟩

/-- A successful `DimensionDefinition.make` stores the symbol and
aliases it was given verbatim. -/
theorem dimension_make_sym_aliases (name : String) (symbol : Option String)
    (aliases : List String) (value : String) (d : Definition)
    (h : DimensionDefinition.make name symbol aliases value = .ok d) :
    d.symbolField = symbol ∧ d.aliases = aliases := by
  unfold DimensionDefinition.make at h
  repeat'
    first
      | exact Except.noConfusion h
      | (injection h with h; subst h; exact ⟨rfl, rfl⟩)
      | split at h
      | simp only [] at h

/-- A successful `PrefixDefinition.make` stores the symbol with `-`
stripped when it is truthy, and every alias with `-` stripped. -/
theorem prefix_make_sym_aliases (name : String) (symbol : Option String)
    (aliases : List String) (value : String) (d : Definition)
    (h : PrefixDefinition.make name symbol aliases value = .ok d) :
    d.symbolField = stripSymbol symbol ∧
    d.aliases = aliases.map (stripChar '-') := by
  unfold PrefixDefinition.make at h
  repeat'
    first
      | exact Except.noConfusion h
      | (injection h with h; subst h; exact ⟨rfl, rfl⟩)
      | split at h
      | simp only [] at h

/-- The head of a keep-nonempty filter is nonempty. -/
theorem filter_head_ne (raw : List String) (s : String)
    (rest : List String)
    (h : raw.filter (fun x => x ≠ "") = s :: rest) : s ≠ "" := by
  have hm : s ∈ raw.filter (fun x => x ≠ "") := by
    rw [h]
    exact List.mem_cons_self s rest
  have := (List.mem_filter.mp hm).2
  simpa using this

/-- C4 (amended): on every non-alias definition line, empty tokens after
the value are dropped first; the first remaining token, if any, becomes
the symbol (`_` meaning none); the rest minus `_` placeholders are the
stored aliases — on unit and dimension lines verbatim, on prefix lines
with leading/trailing `-` additionally stripped from the stored symbol
and each stored alias. -/
theorem from_string_symbol_aliases (line n rest value : String)
    (rawAliases : List String) (d : Definition)
    (h : splitFirst line '=' = some (n, rest))
    (hres : (splitChar rest '=').map pyStrip = value :: rawAliases)
    (ha : pyStartsWith (pyStrip n) "@alias " = false)
    (hd : Definition.from_string line = .ok d) :
    (pyStartsWith (pyStrip n) "[" = false →
      pyEndsWithChar '-' (pyStrip n) = false →
      d.symbolField =
        (match rawAliases.filter (fun x => x ≠ "") with
          | [] => none
          | s :: _ => if s = "_" then none else some s) ∧
      d.aliases =
        ((rawAliases.filter (fun x => x ≠ "")).drop 1).filter
          (fun x => x ≠ "_")) ∧
    (pyStartsWith (pyStrip n) "[" = true →
      d.symbolField =
        (match rawAliases.filter (fun x => x ≠ "") with
          | [] => none
          | s :: _ => if s = "_" then none else some s) ∧
      d.aliases =
        ((rawAliases.filter (fun x => x ≠ "")).drop 1).filter
          (fun x => x ≠ "_")) ∧
    (pyStartsWith (pyStrip n) "[" = false →
      pyEndsWithChar '-' (pyStrip n) = true →
      d.symbolField =
        (match rawAliases.filter (fun x => x ≠ "") with
          | [] => none
          | s :: _ => if s = "_" then none else some (stripChar '-' s)) ∧
      d.aliases =
        (((rawAliases.filter (fun x => x ≠ "")).drop 1).filter
          (fun x => x ≠ "_")).map (stripChar '-')) := by
  refine ⟨?_, ?_, ?_⟩
  · intro hb hc
    simp only [Definition.from_string, h, ha, hb, hc, hres,
      Bool.false_eq_true, if_false] at hd
    have hf := unit_make_fields _ _ _ _ _ hd
    simp only [symbolAndAliases_eq] at hf
    exact ⟨hf.2.2.1, hf.2.2.2⟩
  · intro hb
    simp only [Definition.from_string, h, ha, hb, hres,
      Bool.false_eq_true, if_false, if_true] at hd
    have hf := dimension_make_sym_aliases _ _ _ _ _ hd
    simp only [symbolAndAliases_eq] at hf
    exact hf
  · intro hb hc
    simp only [Definition.from_string, h, ha, hb, hc, hres,
      Bool.false_eq_true, if_false, if_true] at hd
    have hf := prefix_make_sym_aliases _ _ _ _ _ hd
    simp only [symbolAndAliases_eq] at hf
    obtain ⟨hf₁, hf₂⟩ := hf
    refine ⟨?_, hf₂⟩
    rw [hf₁]
    cases hfl : rawAliases.filter (fun x => x ≠ "") with
    | nil => simp [stripSymbol, hfl]
    | cons s restl =>
      have hne : s ≠ "" := filter_head_ne rawAliases s restl hfl
      by_cases hs : s = "_"
      · simp [stripSymbol, hfl, hs]
      · simp [stripSymbol, hfl, hs, hne]

/-- C4 witness: `foo = 5 = _ = a = _ = b` stores no symbol and exactly
the aliases `a` and `b`; `deca- = 10 = da- = deka-` stores the
hyphen-stripped symbol `da` and alias `deka`. -/
theorem from_string_symbol_aliases_witness :
    (splitFirst "foo = 5 = _ = a = _ = b" '=' =
      some ("foo ", " 5 = _ = a = _ = b")) ∧
    ((splitChar " 5 = _ = a = _ = b" '=').map pyStrip =
      "5" :: ["_", "a", "_", "b"]) ∧
    (Definition.symbolField
        (.unitDef "foo" none ["a", "b"] (.scaleConverter ⟨5, 1⟩) [] false) =
        none ∧
      Definition.aliases
        (.unitDef "foo" none ["a", "b"] (.scaleConverter ⟨5, 1⟩) [] false) =
        ["a", "b"]) ∧
    (splitFirst "deca- = 10 = da- = deka-" '=' =
      some ("deca- ", " 10 = da- = deka-")) ∧
    (Definition.symbolField
        (.prefixDef "deca" (some "da") ["deka"] (.scaleConverter ⟨10, 1⟩)) =
        some "da" ∧
      Definition.aliases
        (.prefixDef "deca" (some "da") ["deka"] (.scaleConverter ⟨10, 1⟩)) =
        ["deka"]) := by
  refine ⟨by decide, by decide, ?_, by decide, ?_⟩
  · have hf := (from_string_symbol_aliases "foo = 5 = _ = a = _ = b"
      "foo " " 5 = _ = a = _ = b" "5" ["_", "a", "_", "b"]
      (.unitDef "foo" none ["a", "b"] (.scaleConverter ⟨5, 1⟩) [] false)
      (by decide) (by decide) (by decide) (by rfl)).1
      (by decide) (by decide)
    simpa using hf
  · have hf := (from_string_symbol_aliases "deca- = 10 = da- = deka-"
      "deca- " " 10 = da- = deka-" "10" ["da-", "deka-"]
      (.prefixDef "deca" (some "da") ["deka"] (.scaleConverter ⟨10, 1⟩))
      (by decide) (by decide) (by decide) (by rfl)).2.2
      (by decide) (by decide)
    simpa using hf

/-- C1 counterexample: the line `dozen = 12` parses to a unit whose
reference is empty, and its `is_base` flag is false, not true — an empty
reference falls into the `not any(...)` branch of
`UnitDefinition.__init__`. -/
theorem unit_is_base_empty_reference_cex :
    Definition.from_string "dozen = 12" =
      .ok (.unitDef "dozen" none [] (.scaleConverter ⟨12, 1⟩) [] false) ∧
    Definition.reference
      (.unitDef "dozen" none [] (.scaleConverter ⟨12, 1⟩) [] false) =
      some ([] : UCont) ∧
    Definition.isBase
      (.unitDef "dozen" none [] (.scaleConverter ⟨12, 1⟩) [] false) ≠
      some true :=
  ⟨rfl, rfl, by decide⟩

/-- C1 (amended): `is_base` is computed from the parsed reference
container: if no key is a dimension name — in particular when the
reference is empty — `is_base` is false; if the reference is nonempty and
every key is a dimension name, `is_base` is true; and if the keys mix
dimension names and plain unit names, construction fails with a hard
error. -/
theorem unit_is_base_from_reference (name : String)
    (symbol : Option String) (aliases : List String) (value : String)
    (ph : PHVal) (hs : splitChar value ';' = [value])
    (hp : parseHelperFromString value = .ok ph) :
    ((UCont.keys ph.units).any isDimName = false →
      UnitDefinition.make name symbol aliases value =
        .ok (.unitDef name symbol aliases (.scaleConverter ph.scale)
          ph.units false)) ∧
    ((UCont.keys ph.units).any isDimName = true →
      (UCont.keys ph.units).all isDimName = true →
      UnitDefinition.make name symbol aliases value =
        .ok (.unitDef name symbol aliases (.scaleConverter ph.scale)
          ph.units true)) ∧
    ((UCont.keys ph.units).any isDimName = true →
      (UCont.keys ph.units).all isDimName = false →
      UnitDefinition.make name symbol aliases value =
        .error "Cannot mix dimensions and units in the same definition.") := by
  refine ⟨?_, ?_, ?_⟩
  · intro h1
    simp [UnitDefinition.make, hs, hp, h1]
  · intro h1 h2
    simp [UnitDefinition.make, hs, hp, h1, h2]
  · intro h1 h2
    simp [UnitDefinition.make, hs, hp, h1, h2]

/-- C1 witness: the all-dimension reference `[length]` yields a base
unit. -/
theorem unit_is_base_from_reference_witness :
    (splitChar "[length]" ';' = ["[length]"]) ∧
    (parseHelperFromString "[length]" =
      .ok ⟨Q.one, [("[length]", 1)]⟩) ∧
    UnitDefinition.make "meter" none [] "[length]" =
      .ok (.unitDef "meter" none [] (.scaleConverter Q.one)
        [("[length]", 1)] true) :=
  ⟨by decide, by rfl,
    (unit_is_base_from_reference "meter" none [] "[length]"
        ⟨Q.one, [("[length]", 1)]⟩ (by decide) (by rfl)).2.1
      (by decide) (by decide)⟩

/-- C3 counterexample: `degZ = kelvin; offset: 0` carries a
`; offset: <number>` modifier, yet its converter is a plain
ScaleConverter and it is multiplicative — the offset converter is chosen
only when the offset is nonzero. -/
theorem unit_offset_zero_cex :
    Definition.from_string "degZ = kelvin; offset: 0" =
      .ok (.unitDef "degZ" none [] (.scaleConverter Q.one)
        [("kelvin", 1)] false) ∧
    Definition.converter
      (.unitDef "degZ" none [] (.scaleConverter Q.one)
        [("kelvin", 1)] false) = some (.scaleConverter Q.one) ∧
    Definition.is_multiplicative
      (.unitDef "degZ" none [] (.scaleConverter Q.one)
        [("kelvin", 1)] false) = some true :=
  ⟨rfl, rfl, rfl⟩

/-- C3 (amended): a unit value with a `; offset: <number>` modifier gets
an affine OffsetConverter — behaving as `x*scale + offset` towards the
reference and not multiplicative — exactly when the number is nonzero; a
zero offset modifier, like no modifier at all, yields a pure
ScaleConverter, the multiplicative kind. -/
theorem unit_offset_modifier (name : String) (symbol : Option String)
    (aliases : List String) (value cv m : String) (ph : PHVal) (off : Q)
    (hdim : (UCont.keys ph.units).any isDimName = false) :
    (splitChar value ';' = [cv, m] →
      parseModifiers m = .ok [("offset", off)] →
      parseHelperFromString cv = .ok ph →
      (off ≠ Q.zero →
        UnitDefinition.make name symbol aliases value =
          .ok (.unitDef name symbol aliases
            (.offsetConverter ph.scale off) ph.units false) ∧
        Converter.is_multiplicative (.offsetConverter ph.scale off) =
          false ∧
        ∀ x, Converter.toReference (.offsetConverter ph.scale off) x =
          Q.add (Q.mul x ph.scale) off) ∧
      (off = Q.zero →
        UnitDefinition.make name symbol aliases value =
          .ok (.unitDef name symbol aliases
            (.scaleConverter ph.scale) ph.units false))) ∧
    (splitChar value ';' = [value] →
      parseHelperFromString value = .ok ph →
      UnitDefinition.make name symbol aliases value =
        .ok (.unitDef name symbol aliases (.scaleConverter ph.scale)
          ph.units false) ∧
      Converter.is_multiplicative (.scaleConverter ph.scale) = true) := by
  constructor
  · intro hsplit hm hp
    constructor
    · intro hoff
      refine ⟨?_, rfl, fun x => rfl⟩
      simp [UnitDefinition.make, hsplit, hm, hp, hdim, hoff]
    · intro hoff
      simp [UnitDefinition.make, hsplit, hm, hp, hdim, hoff]
  · intro hsplit hp
    refine ⟨?_, rfl⟩
    simp [UnitDefinition.make, hsplit, hp, hdim]

/-- C3 witness: `kelvin; offset: 273.15` yields the Celsius-style affine
converter. -/
theorem unit_offset_modifier_witness :
    (splitChar "kelvin; offset: 273.15" ';' =
      ["kelvin", " offset: 273.15"]) ∧
    (parseModifiers " offset: 273.15" =
      .ok [("offset", (⟨5463, 20⟩ : Q))]) ∧
    (UnitDefinition.make "degC" none [] "kelvin; offset: 273.15" =
      .ok (.unitDef "degC" none []
        (.offsetConverter Q.one (⟨5463, 20⟩ : Q)) [("kelvin", 1)] false) ∧
      Converter.is_multiplicative
        (.offsetConverter Q.one (⟨5463, 20⟩ : Q)) = false ∧
      ∀ x, Converter.toReference
        (.offsetConverter Q.one (⟨5463, 20⟩ : Q)) x =
        Q.add (Q.mul x Q.one) (⟨5463, 20⟩ : Q)) := by
  refine ⟨by decide, by rfl, ?_⟩
  have hf := (unit_offset_modifier "degC" none [] "kelvin; offset: 273.15"
      "kelvin" " offset: 273.15" ⟨Q.one, [("kelvin", 1)]⟩ ((⟨5463, 20⟩ : Q))
      (by decide)).1 (by decide) (by rfl) (by rfl) |>.1 (by decide)
  simpa using hf

/-- A successful `convertAll` run converts every position by
`convertOne`. -/
theorem convertAll_ok_get (reg : Registry) (strict : Bool)
    (vbn : List (String × PyValue)) (ps : List ParsedArg) :
    ∀ (vs ws : List PyValue) (i : Nat) (p : ParsedArg) (v : PyValue),
    convertAll reg strict vbn ps vs = .ok ws →
    ps.get? i = some p → vs.get? i = some v →
    ∃ w, convertOne reg strict vbn p v = .ok w ∧ ws.get? i = some w := by
  induction ps with
  | nil =>
    intro vs ws i p v h hp hv
    simp at hp
  | cons p₀ ps ih =>
    intro vs ws i p v h hp hv
    match vs with
    | [] => simp [convertAll] at h
    | v₀ :: vs =>
      simp only [convertAll] at h
      cases hc : convertOne reg strict vbn p₀ v₀ with
      | error e => rw [hc] at h; exact Except.noConfusion h
      | ok w₀ =>
        rw [hc] at h
        cases hr : convertAll reg strict vbn ps vs with
        | error e => rw [hr] at h; exact Except.noConfusion h
        | ok ws₀ =>
          rw [hr] at h
          injection h with h
          subst h
          match i with
          | 0 =>
            simp only [List.get?_cons_zero, Option.some_inj] at hp hv
            subst hp
            subst hv
            exact ⟨w₀, hc, rfl⟩
          | i + 1 =>
            simp only [List.get?_cons_succ] at hp hv
            obtain ⟨w, hw₁, hw₂⟩ := ih vs ws₀ i p v hr hp hv
            exact ⟨w, hw₁, by simpa using hw₂⟩

/-- If any position fails to convert, `convertAll` fails. -/
theorem convertAll_error_of_get (reg : Registry) (strict : Bool)
    (vbn : List (String × PyValue)) (ps : List ParsedArg) :
    ∀ (vs : List PyValue) (i : Nat) (p : ParsedArg) (v : PyValue)
      (e : String),
    ps.get? i = some p → vs.get? i = some v →
    convertOne reg strict vbn p v = .error e →
    ∃ msg, convertAll reg strict vbn ps vs = .error msg := by
  induction ps with
  | nil =>
    intro vs i p v e hp hv hc
    simp at hp
  | cons p₀ ps ih =>
    intro vs i p v e hp hv hc
    match vs with
    | [] =>
      exact ⟨"arity mismatch", by simp [convertAll]⟩
    | v₀ :: vs =>
      cases hc₀ : convertOne reg strict vbn p₀ v₀ with
      | error e₀ => exact ⟨e₀, by simp [convertAll, hc₀]⟩
      | ok w₀ =>
        match i with
        | 0 =>
          simp only [List.get?_cons_zero, Option.some_inj] at hp hv
          subst hp
          subst hv
          rw [hc] at hc₀
          exact Except.noConfusion hc₀
        | i + 1 =>
          simp only [List.get?_cons_succ] at hp hv
          obtain ⟨msg, hm⟩ := ih vs i p v e hp hv hc
          exact ⟨msg, by simp [convertAll, hc₀, hm]⟩

/-- When the first failing position fails with error `e`, `convertAll`
fails with exactly `e`. -/
theorem convertAll_error_first (reg : Registry) (strict : Bool)
    (vbn : List (String × PyValue)) (ps : List ParsedArg) :
    ∀ (vs : List PyValue) (i : Nat) (p : ParsedArg) (v : PyValue)
      (e : String),
    ps.get? i = some p → vs.get? i = some v →
    convertOne reg strict vbn p v = .error e →
    (∀ j pj vj, j < i → ps.get? j = some pj → vs.get? j = some vj →
      ∃ w, convertOne reg strict vbn pj vj = .ok w) →
    convertAll reg strict vbn ps vs = .error e := by
  induction ps with
  | nil =>
    intro vs i p v e hp hv hc hfirst
    simp at hp
  | cons p₀ ps ih =>
    intro vs i p v e hp hv hc hfirst
    match vs with
    | [] =>
      match i with
      | 0 => simp at hv
      | i + 1 => simp at hv
    | v₀ :: vs =>
      match i with
      | 0 =>
        simp only [List.get?_cons_zero, Option.some_inj] at hp hv
        subst hp
        subst hv
        simp [convertAll, hc]
      | i + 1 =>
        simp only [List.get?_cons_succ] at hp hv
        obtain ⟨w₀, hw₀⟩ := hfirst 0 p₀ v₀ (Nat.succ_pos i) rfl rfl
        have hrec := ih vs i p v e hp hv hc
          (fun j pj vj hj hpj hvj =>
            hfirst (j + 1) pj vj (Nat.succ_lt_succ hj)
              (by simpa using hpj) (by simpa using hvj))
        simp [convertAll, hw₀, hrec]

/-- C6: through a `wraps`-wrapped call, a position declared with plain
units rejects a bare (non-quantity) value with an error raised before the
inner function runs when `strict` is set — exactly the ValueError when it
is the first failing position — passes a bare value through unchanged
when `strict` is not set, and converts a quantity into the declared units
in either mode. -/
theorem wraps_strict_argument_check (reg : Registry) (ret : ArgSpec)
    (args : List ArgSpec) (parsed : List ParsedArg)
    (values : List PyValue) (i : Nat) (u : UCont)
    (hp : parseWrapArgs args = .ok parsed)
    (hi : parsed.get? i = some (.unitArg u)) :
    (∀ x, values.get? i = some (.raw x) →
      ∃ e, ∀ func, wrapsApply reg ret args true func values = .error e) ∧
    (∀ x, values.get? i = some (.raw x) →
      (∀ j pj vj, j < i → parsed.get? j = some pj →
        values.get? j = some vj →
        ∃ w, convertOne reg true (collectVbn parsed values) pj vj =
          .ok w) →
      ∀ func, wrapsApply reg ret args true func values =
        .error ("ValueError: A wrapped function using strict=True " ++
          "requires quantity for all arguments with not None units.")) ∧
    (∀ x ws, values.get? i = some (.raw x) →
      convertAll reg false (collectVbn parsed values) parsed values =
        .ok ws →
      ws.get? i = some (.raw x)) ∧
    (∀ strict m uv m₂ ws, values.get? i = some (.quantity m uv) →
      reg.convertMag m uv u = .ok m₂ →
      convertAll reg strict (collectVbn parsed values) parsed values =
        .ok ws →
      ws.get? i = some (.raw m₂)) := by
  refine ⟨?_, ?_, ?_, ?_⟩
  · intro x hv
    have hc : convertOne reg true (collectVbn parsed values)
        (.unitArg u) (.raw x) =
        .error ("ValueError: A wrapped function using strict=True " ++
          "requires quantity for all arguments with not None units.") := rfl
    obtain ⟨msg, hm⟩ := convertAll_error_of_get reg true
      (collectVbn parsed values) parsed values i (.unitArg u) (.raw x)
      _ hi hv hc
    exact ⟨msg, fun func => by simp [wrapsApply, hp, hm]⟩
  · intro x hv hfirst func
    have hc : convertOne reg true (collectVbn parsed values)
        (.unitArg u) (.raw x) =
        .error ("ValueError: A wrapped function using strict=True " ++
          "requires quantity for all arguments with not None units.") := rfl
    have hm := convertAll_error_first reg true
      (collectVbn parsed values) parsed values i (.unitArg u) (.raw x)
      _ hi hv hc hfirst
    simp [wrapsApply, hp, hm]
  · intro x ws hv hall
    obtain ⟨w, hw₁, hw₂⟩ := convertAll_ok_get reg false
      (collectVbn parsed values) parsed values ws i (.unitArg u)
      (.raw x) hall hi hv
    have : w = .raw x := by
      have : convertOne reg false (collectVbn parsed values)
          (.unitArg u) (.raw x) = .ok (.raw x) := rfl
      rw [this] at hw₁
      injection hw₁ with h
      exact h.symm
    rw [this] at hw₂
    exact hw₂
  · intro strict m uv m₂ ws hv hconv hall
    obtain ⟨w, hw₁, hw₂⟩ := convertAll_ok_get reg strict
      (collectVbn parsed values) parsed values ws i (.unitArg u)
      (.quantity m uv) hall hi hv
    have hone : convertOne reg strict (collectVbn parsed values)
        (.unitArg u) (.quantity m uv) =
        (reg.convertMag m uv u).map .raw := rfl
    rw [hone, hconv] at hw₁
    injection hw₁ with h
    rw [← h] at hw₂
    exact hw₂

/-- C6 witness: with `strict`, passing the bare number 2 where meters are
declared fails with the ValueError; without `strict`, it is passed
through; a 300 cm quantity converts to 3 m either way. -/
theorem wraps_strict_argument_check_witness :
    (parseWrapArgs [.unitsOf meterC] = .ok [.unitArg meterC]) ∧
    ([ParsedArg.unitArg meterC].get? 0 = some (.unitArg meterC)) ∧
    (∀ func, wrapsApply regSample (.unitsOf meterC) [.unitsOf meterC]
      true func [.raw ⟨2, 1⟩] =
      .error ("ValueError: A wrapped function using strict=True " ++
        "requires quantity for all arguments with not None units.")) ∧
    (∃ e, ∀ func, wrapsApply regSample (.unitsOf meterC)
      [.unitsOf meterC] true func [.raw ⟨2, 1⟩] = .error e) := by
  have ht := wraps_strict_argument_check regSample (.unitsOf meterC)
    [.unitsOf meterC] [.unitArg meterC] [.raw ⟨2, 1⟩] 0 meterC
    (by decide) (by decide)
  refine ⟨by decide, by decide, ?_, ht.1 ⟨2, 1⟩ (by decide)⟩
  exact ht.2.1 ⟨2, 1⟩ (by decide)
    (fun j pj vj hj hpj hvj => absurd hj (by omega))

/-- C7: wrapping with return units `meter` and argument units `meter`
tags a bare-number result as a quantity in meters; a centimeter quantity
argument reaches the inner function as its magnitude divided by 100; and
a `None` return declaration leaves the inner result untouched. -/
theorem wraps_meter_conversion :
    (∀ func values v,
      (∀ nv, ∃ x, func nv = PyValue.raw x) →
      wrapsApply regSample (.unitsOf meterC) [.unitsOf meterC] true func
        values = .ok v →
      ∃ mag, v = .quantity mag meterC) ∧
    (∀ (x : Q) func,
      wrapsApply regSample (.unitsOf meterC) [.unitsOf meterC] true func
        [.quantity x cmC] =
        .ok (mkQuantity (func [.raw (Q.div x (Q.ofNat 100))]) meterC)) ∧
    (∀ strict func values ws,
      convertAll regSample strict
        (collectVbn [.unitArg meterC] values) [.unitArg meterC] values =
        .ok ws →
      wrapsApply regSample .skip [.unitsOf meterC] strict func values =
        .ok (func ws)) := by
  refine ⟨?_, ?_, ?_⟩
  · intro func values v hf h
    simp only [wrapsApply,
      show parseWrapArgs [ArgSpec.unitsOf meterC] =
        .ok [.unitArg meterC] from rfl] at h
    cases hc : convertAll regSample true
        (collectVbn [.unitArg meterC] values) [.unitArg meterC] values with
    | error e => rw [hc] at h; exact Except.noConfusion h
    | ok nv =>
      rw [hc] at h
      injection h with h
      obtain ⟨x, hx⟩ := hf nv
      refine ⟨x, ?_⟩
      rw [← h, hx]
      rfl
  · intro x func
    rfl
  · intro strict func values ws hall
    simp only [wrapsApply,
      show parseWrapArgs [ArgSpec.unitsOf meterC] =
        .ok [.unitArg meterC] from rfl, hall]

/-- C7 witness: a constant-3 inner function yields 3 m; a 200 cm argument
reaches the inner function as 2. -/
theorem wraps_meter_conversion_witness :
    ((∀ nv, ∃ x, (fun _ => PyValue.raw ⟨3, 1⟩ :
        List PyValue → PyValue) nv = PyValue.raw x) ∧
      ∃ mag, (PyValue.quantity ⟨3, 1⟩ meterC) = .quantity mag meterC) ∧
    wrapsApply regSample (.unitsOf meterC) [.unitsOf meterC] true
      (fun vs => vs.headD (.raw Q.zero)) [.quantity ⟨200, 1⟩ cmC] =
      .ok (.quantity ⟨2, 1⟩ meterC) := by
  constructor
  · exact ⟨fun _ => ⟨⟨3, 1⟩, rfl⟩,
      wraps_meter_conversion.1 (fun _ => PyValue.raw ⟨3, 1⟩)
        [.quantity ⟨200, 1⟩ cmC] (.quantity ⟨3, 1⟩ meterC)
        (fun _ => ⟨⟨3, 1⟩, rfl⟩) (by rfl)⟩
  · exact (wraps_meter_conversion.2.1 ⟨200, 1⟩
      (fun vs => vs.headD (.raw Q.zero))).trans rfl

/-- C5: serializing and then deserializing any error of the taxonomy
yields the same error — same kind, same constructor arguments, same
attached filename/lineno attributes — and an identical string rendering,
with no registry involved. -/
theorem error_pickle_round_trip (e : PintError) :
    deserializeError (serializeError e) = some e ∧
    (deserializeError (serializeError e)).map renderError =
      some (renderError e) := by
  have h : deserializeError (serializeError e) = some e := by
    cases e <;> simp [serializeError, deserializeError]
  exact ⟨h, by rw [h]; rfl⟩

/-- C8: the rendering of a DefinitionSyntaxError (and of a
RedefinitionError, which carries the same location attributes) is the
bare message with no location, `In line <n>: <msg>` with only a line,
`While opening <file>: <msg>` with only a filename, and
`While opening <file>, in line <n>: <msg>` with both — also when the
location is attached after construction. -/
theorem definition_syntax_error_rendering (msg f dn dt : String) (n : Nat) :
    renderError (.definitionSyntaxError msg none none) = msg ∧
    renderError (.definitionSyntaxError msg none (some n)) =
      "In line " ++ toString n ++ ": " ++ msg ∧
    renderError (.definitionSyntaxError msg (some f) none) =
      "While opening " ++ f ++ ": " ++ msg ∧
    renderError (.definitionSyntaxError msg (some f) (some n)) =
      "While opening " ++ f ++ ", in line " ++ toString n ++ ": " ++ msg ∧
    attachFileLine (.definitionSyntaxError msg none none) (some f) (some n) =
      .definitionSyntaxError msg (some f) (some n) ∧
    renderError (.redefinitionError dn dt none none) =
      "Cannot redefine " ++ quoted dn ++ " (" ++ dt ++ ")" ∧
    renderError
        (attachFileLine (.redefinitionError dn dt none none)
          (some f) (some n)) =
      "While opening " ++ f ++ ", in line " ++ toString n ++ ": " ++
        ("Cannot redefine " ++ quoted dn ++ " (" ++ dt ++ ")") := by
  refine ⟨rfl, rfl, rfl, rfl, rfl, ?_, ?_⟩
  · rfl
  · simp only [renderError, attachFileLine, locPart, strAppendAssoc]

/-- C9: the `symbol` accessor falls back to the definition name when the
stored symbol is absent or empty, with `has_symbol` false; a nonempty
stored symbol is returned as is, with `has_symbol` true. -/
theorem symbol_fallback_property (d : Definition) :
    ((d.symbolField = none ∨ d.symbolField = some "") →
      d.symbol = d.name ∧ d.has_symbol = false) ∧
    (∀ s, d.symbolField = some s → s ≠ "" →
      d.symbol = s ∧ d.has_symbol = true) := by
  constructor
  · rintro (h | h) <;> simp [Definition.symbol, Definition.has_symbol, h]
  · intro s h hs
    simp [Definition.symbol, Definition.has_symbol, h, hs]

/-- C9 witness: the fallback on a symbol-less meter definition and the
direct read on one with symbol `m`. -/
theorem symbol_fallback_property_witness :
    (Definition.symbol
        (.unitDef "meter" none [] (.scaleConverter Q.one) [] false) = "meter" ∧
      Definition.has_symbol
        (.unitDef "meter" none [] (.scaleConverter Q.one) [] false) = false) ∧
    (Definition.symbol
        (.unitDef "meter" (some "m") [] (.scaleConverter Q.one) [] false) = "m" ∧
      Definition.has_symbol
        (.unitDef "meter" (some "m") [] (.scaleConverter Q.one) [] false) =
        true) :=
  ⟨(symbol_fallback_property _).1 (Or.inl rfl),
    (symbol_fallback_property _).2 "m" rfl (by decide)⟩

/-- C10: `set_application_registry` on a non-registry object raises a
TypeError and leaves the state unchanged; on a registry instance it
succeeds and `get_application_registry` then returns exactly the object
that was set. -/
theorem set_application_registry_spec (r : RegObj) (s : AppState) :
    (isRegistryInstance r = false →
      (set_application_registry r s).1 =
        some ("TypeError: Expected UnitRegistry; got " ++ regTypeName r) ∧
      (set_application_registry r s).2 = s) ∧
    (isRegistryInstance r = true →
      (set_application_registry r s).1 = none ∧
      get_application_registry (set_application_registry r s).2 = r) := by
  constructor <;> intro h <;>
    simp [set_application_registry, get_application_registry, h]

/-- C10 witness: setting a non-registry object fails and keeps the old
lazy registry; setting a unit registry installs it. -/
theorem set_application_registry_spec_witness :
    (isRegistryInstance (.otherObject 3) = false ∧
      (set_application_registry (.otherObject 3)
          ⟨.lazyRegistry 0⟩).2 = ⟨.lazyRegistry 0⟩) ∧
    (isRegistryInstance (.unitRegistry 7) = true ∧
      get_application_registry
        (set_application_registry (.unitRegistry 7)
          ⟨.lazyRegistry 0⟩).2 = .unitRegistry 7) :=
  ⟨⟨rfl, ((set_application_registry_spec (.otherObject 3)
      ⟨.lazyRegistry 0⟩).1 rfl).2⟩,
    ⟨rfl, ((set_application_registry_spec (.unitRegistry 7)
      ⟨.lazyRegistry 0⟩).2 rfl).2⟩⟩

end Pint
